import Mathlib

/-!
Verification development for the sap-flow aggregation script `app.py`.

The script is embedded shallowly:

* A sensor cell after `load_data` is a float-like value: either a finite
  number (modelled exactly as a rational), a NaN, or one of the two
  infinities.  The inductive type `PVal` captures exactly these four cases.
* `pd.to_numeric(..., errors='coerce')` applied to a string is embedded by
  `toNumericCoerce`, built on an executable parser `parseFloat` for decimal
  numerals with optional sign, fraction and exponent, plus the special
  tokens `inf`, `infinity` and `nan` (case-insensitive), as accepted by the
  underlying float conversion.  Parse failure coerces to NaN.
* The per-sensor treatment in `processar_ano` (lines 32-40 of `app.py`):
  `astype(str)` followed by the sentinel `replace`, `to_numeric`,
  `.fillna(0)` and `.clip(lower=0)` is embedded at the value level by
  `trataSensor`.  The `astype(str)`/re-parse round trip is the identity on
  finite values (a float's repr is never a sentinel token and reparses to
  the same value); a NaN prints as "nan", which the sentinel map sends to
  "0"; the infinities print as "inf"/"-inf", which are not sentinel tokens
  and reparse to themselves.
* `datetime(ano, 1, 1) + timedelta(days=diaj - 1)` is embedded by a
  year-by-year walk over proleptic-Gregorian year lengths
  (`diaJulianoParaMesDia`); `datetime` accepts years 1..9999 and the `except`
  branch of `dia_juliano_para_mes_dia` (which returns `(None, None)`) is
  embedded as `none`.
* The aggregation in `processar_ano` / `calcular_somatorios` is embedded
  over lists of rows, with group-by sums realised by `groupSum` over the
  finite set of keys occurring in the data, and sums valued in `WithTop ℚ`
  (finite values are exact rationals; `⊤` stands for a float +infinity,
  which the cleaning step can let through).
-/

namespace Eucalipto

/-- Float-like scalar after pandas parsing: a finite value (exact rational),
NaN, or an infinity. -/
inductive PVal where
  | num (q : ℚ)
  | nan
  | inf
  | ninf
deriving DecidableEq, Repr

/-- Splits an optional leading sign, returning whether it was negative. -/
def splitSign : List Char → Bool × List Char
  | '-' :: cs => (true, cs)
  | '+' :: cs => (false, cs)
  | cs => (false, cs)

/-- Consumes leading decimal digits, returning their value, how many there
were, and the rest of the input. -/
def takeDigits : ℕ → ℕ → List Char → ℕ × ℕ × List Char
  | acc, cnt, c :: cs =>
      if c.isDigit then takeDigits (10 * acc + (c.toNat - 48)) (cnt + 1) cs
      else (acc, cnt, c :: cs)
  | acc, cnt, [] => (acc, cnt, [])

/-- Parses an unsigned mantissa `digits[.digits]` (at least one digit in
total) as an exact rational: `int.frac` is the fraction with numerator
`int * 10 ^ |frac|` plus the fraction digits over `10 ^ |frac|`. -/
def parseMantissa (cs : List Char) : Option (ℚ × List Char) :=
  let (ip, n1, r1) := takeDigits 0 0 cs
  match r1 with
  | '.' :: r2 =>
      let (fp, n2, r3) := takeDigits 0 0 r2
      if n1 + n2 = 0 then none
      else some (mkRat ((ip : ℤ) * 10 ^ n2 + (fp : ℤ)) (10 ^ n2), r3)
  | _ => if n1 = 0 then none else some ((ip : ℚ), r1)

/-- Parses an exponent suffix (after the letter `e`). -/
def parseExpPart (cs : List Char) : Option (ℤ × List Char) :=
  let (neg, r) := splitSign cs
  let (ev, n, r2) := takeDigits 0 0 r
  if n = 0 then none else some ((if neg then -(ev : ℤ) else (ev : ℤ)), r2)

/-- Scales a rational by a (possibly negative) power of ten. -/
def applyExp10 (q : ℚ) (e : ℤ) : ℚ :=
  if 0 ≤ e then mkRat (q.num * (10 : ℤ) ^ e.toNat) q.den
  else mkRat q.num (q.den * 10 ^ (-e).toNat)

/-- Parses an unsigned numeral with optional fraction and exponent. -/
def parseNumber (cs : List Char) : Option ℚ :=
  match parseMantissa cs with
  | none => none
  | some (m, r) =>
    match r with
    | [] => some m
    | 'e' :: r2 =>
        match parseExpPart r2 with
        | some (e, []) => some (applyExp10 m e)
        | _ => none
    | 'E' :: r2 =>
        match parseExpPart r2 with
        | some (e, []) => some (applyExp10 m e)
        | _ => none
    | _ => none

/-- Case-insensitive comparison of a char list with a (lower-case) token. -/
def lowerEq (cs : List Char) (t : String) : Bool :=
  cs.map Char.toLower == t.toList

/-- Embedding of float conversion of a string as performed by
`pd.to_numeric`: optional surrounding whitespace, optional sign, then a
numeral or one of the tokens `inf`/`infinity`/`nan` (case-insensitive).
Returns `none` when the string is not numeric. -/
def parseFloat (s : String) : Option PVal :=
  let cs := ((s.toList.dropWhile Char.isWhitespace).reverse.dropWhile
      Char.isWhitespace).reverse
  let (neg, body) := splitSign cs
  if lowerEq body "inf" || lowerEq body "infinity" then
    some (if neg then PVal.ninf else PVal.inf)
  else if lowerEq body "nan" then some PVal.nan
  else
    match parseNumber body with
    | some q => some (PVal.num (if neg then -q else q))
    | none => none

/-- Embedding of `pd.to_numeric(x, errors='coerce')` on a string cell:
parse failure coerces to NaN. -/
def toNumericCoerce (s : String) : PVal :=
  (parseFloat s).getD PVal.nan

/-- Embedding of `.str.replace(',', '.')` from `load_data` (line 192 of
`app.py`); both arguments to the Python `replace` are single characters, so
it is a per-character map. -/
def replaceCommas (s : String) : String :=
  String.mk (s.toList.map fun c => if c = ',' then '.' else c)

/-- Sensor-cell parsing performed by `load_data` (lines 189-194 of
`app.py`): decimal commas become points, then `pd.to_numeric` with
coercion. -/
def loadCell (s : String) : PVal :=
  toNumericCoerce (replaceCommas s)

/-- Embedding of lines 33-36 of `processar_ano`: `astype(str)` followed by
the sentinel `replace` and the re-parse by `pd.to_numeric`.  A float NaN
prints as "nan", which the sentinel map `{'<NA>': '0', 'nan': '0', 'NaN':
'0', 'NA': '0'}` sends to "0"; a finite float's repr is never a sentinel
token and reparses to the same value; the infinities print as
"inf"/"-inf", which are not sentinel tokens and reparse to themselves.  At
the value level the step therefore rewrites NaN to 0 and fixes everything
else. -/
def replaceSentinels : PVal → PVal
  | PVal.nan => PVal.num 0
  | v => v

/-- Embedding of `.fillna(0)` (line 40 of `app.py`). -/
def fillna0 : PVal → PVal
  | PVal.nan => PVal.num 0
  | v => v

/-- Embedding of `.clip(lower=0)` (line 40 of `app.py`), landing in
`WithTop ℚ`: a finite value is clipped below at 0, `-inf` is clipped to 0,
`+inf` passes through as `⊤`.  The NaN case is unreachable because
`fillna0` runs first (pandas would keep NaN; the value chosen here is
immaterial). -/
def clipLower0 : PVal → WithTop ℚ
  | PVal.num q => ((max 0 q : ℚ) : WithTop ℚ)
  | PVal.inf => ⊤
  | PVal.ninf => (0 : WithTop ℚ)
  | PVal.nan => (0 : WithTop ℚ)

/-- The full per-cell sensor treatment of `processar_ano` (lines 32-40 of
`app.py`). -/
def trataSensor (v : PVal) : WithTop ℚ :=
  clipLower0 (fillna0 (replaceSentinels v))

/-- The Reading Normalizer end to end, from the raw file string: the
`load_data` parse followed by the `processar_ano` cleaning. -/
def normalizeCellStr (s : String) : WithTop ℚ :=
  trataSensor (loadCell s)

/-! ## Calendar converter -/

/-- Proleptic-Gregorian leap-year rule, as used by Python `datetime`. -/
def isLeap (y : ℤ) : Bool :=
  (y % 4 == 0 && y % 100 != 0) || (y % 400 == 0)

/-- Number of days of a year with the given leap flag. -/
def daysInYearB (leap : Bool) : ℤ :=
  if leap then 366 else 365

/-- Number of days of the given year. -/
def daysInYear (y : ℤ) : ℤ :=
  daysInYearB (isLeap y)

/-- Month lengths of a year with the given leap flag. -/
def monthLengths (leap : Bool) : List ℤ :=
  [31, if leap then 29 else 28, 31, 30, 31, 30, 31, 31, 30, 31, 30, 31]

/-- Walks the month table, converting a day-of-year into (month, day). -/
def mdAux : List ℤ → ℤ → ℤ → ℤ × ℤ
  | [], m, doy => (m, doy)
  | len :: rest, m, doy =>
      if doy ≤ len then (m, doy) else mdAux rest (m + 1) (doy - len)

/-- Converts a day-of-year (1-based, within range of the year) into a
(month, day) pair. -/
def monthDayOfDoy (leap : Bool) (doy : ℤ) : ℤ × ℤ :=
  mdAux (monthLengths leap) 1 doy

/-- Accumulates the month lengths strictly before month `m`, then adds the
day: the inverse direction, (month, day) back to day-of-year. -/
def doyAux : List ℤ → ℤ → ℤ → ℤ
  | [], _, acc => acc
  | len :: rest, m, acc =>
      if m ≤ 1 then acc else doyAux rest (m - 1) (acc + len)

/-- Day-of-year of a (month, day) pair within a year with the given leap
flag. -/
def dayOfYear (leap : Bool) (m d : ℤ) : ℤ :=
  doyAux (monthLengths leap) m d

/-- Fuelled year-by-year walk embedding
`datetime(ano, 1, 1) + timedelta(days=diaj - 1)`: Python computes the date
whose ordinal is `toordinal(ano, 1, 1) + (diaj - 1)` and raises when the
resulting ordinal leaves the supported range (years 1..9999), which the
`except` branch of `dia_juliano_para_mes_dia` turns into `(None, None)`.
Each step moves the year by one towards the boundary, so at most
10000 steps can happen before the walk stops; the fuel of 20000 is
therefore never exhausted and the function is total on its real domain. -/
def djpmdAux : ℕ → ℤ → ℤ → Option (ℤ × ℤ)
  | 0, _, _ => none
  | fuel + 1, ano, diaj =>
      if ano < 1 ∨ 9999 < ano then none
      else if diaj < 1 then djpmdAux fuel (ano - 1) (diaj + daysInYear (ano - 1))
      else if daysInYear ano < diaj then djpmdAux fuel (ano + 1) (diaj - daysInYear ano)
      else some (monthDayOfDoy (isLeap ano) diaj)

/-- Embedding of `dia_juliano_para_mes_dia` (lines 209-229 of `app.py`):
the `(month, day)` of `datetime(ano, 1, 1) + timedelta(days=diaj - 1)`,
or `none` when the `except` branch fires (year outside `datetime`'s
range).  Note that the function does not restrict the result to the year
`ano`: an out-of-range `diaj` silently lands in a neighbouring year. -/
def diaJulianoParaMesDia (ano diaj : ℤ) : Option (ℤ × ℤ) :=
  djpmdAux 20000 ano diaj

/-! ## Rows and hierarchical aggregation -/

/-- A data row as `processar_ano` receives it (after `load_data` and
`otimizar_tipos_dados`): integer `ANO`, `DIAJ` and `HORA` columns and
float-like sensor cells, indexed here by sensor number. -/
structure Row where
  ano : ℤ
  diaj : ℤ
  hora : ℤ
  val : ℕ → PVal

/-- A row after the sensor treatment and the Julian-day conversion of
`processar_ano`: cleaned sensor values and derived `MES`/`DIA` columns. -/
structure NRow where
  ano : ℤ
  diaj : ℤ
  hora : ℤ
  mes : ℤ
  dia : ℤ
  val : ℕ → WithTop ℚ

/-- The time-window predicate of lines 26-29 of `app.py`:
`(HORA >= 360) & (HORA <= 1080)`. -/
def horaAtiva (h : ℤ) : Bool :=
  decide (360 ≤ h) && decide (h ≤ 1080)

/-- Applies the sensor treatment (lines 32-40) and the Julian-day
conversion (lines 42-46) to one filtered row.  The two passes are
independent per-row, so they are fused here.  `none` records a row on
which `dia_juliano_para_mes_dia` fell into its `except` branch: the
`(None, None)` pair it returns then poisons the `MES` column, and the
subsequent `sorted(...unique())` / `int(mes)` calls of lines 49-50 raise,
aborting the whole batch. -/
def normRow (r : Row) : Option NRow :=
  match diaJulianoParaMesDia r.ano r.diaj with
  | some (m, d) => some ⟨r.ano, r.diaj, r.hora, m, d, fun n => trataSensor (r.val n)⟩
  | none => none

/-- Sequences a list of optional results, failing as soon as one fails. -/
def mapOption (f : α → Option β) : List α → Option (List β)
  | [] => some []
  | a :: l =>
    match f a, mapOption f l with
    | some b, some l2 => some (b :: l2)
    | _, _ => none

/-- Inserts an integer into an ascending duplicate-free list, keeping it
ascending and duplicate-free. -/
def insUniq (x : ℤ) : List ℤ → List ℤ
  | [] => [x]
  | y :: ys => if x < y then x :: y :: ys else if x = y then y :: ys else y :: insUniq x ys

/-- Embedding of `sorted(column.unique())`: the ascending list of distinct
values. -/
def sortedUnique (l : List ℤ) : List ℤ :=
  l.foldr insUniq []

/-- Group-by-and-sum: the sum of `v` over the elements of `l` whose key is
`k` (the value a pandas `groupby(key)[...].sum()` stores at key `k`). -/
def groupSum [DecidableEq κ] [AddCommMonoid M] (l : List α) (key : α → κ) (v : α → M)
    (k : κ) : M :=
  ((l.filter fun x => decide (key x = k)).map v).sum

/-- The set of keys present in the data, i.e. the index of a pandas
group-by result. -/
def keysOf [DecidableEq κ] (l : List α) (key : α → κ) : Finset κ :=
  (l.map key).toFinset

/-- The per-(month, sensor) block stored in `resultados_ano` (lines 70-74
of `app.py`): minute-bucket sums keyed by `(DIAJ, HORA)`, daily sums keyed
by `DIAJ`, and the monthly total. -/
structure SensorAgg where
  horaKeys : Finset (ℤ × ℤ)
  somaHora : ℤ × ℤ → WithTop ℚ
  diaKeys : Finset ℤ
  somaDia : ℤ → WithTop ℚ
  somaMes : WithTop ℚ

/-- Lines 56-74 of `app.py` for one month group and one sensor:
`soma_hora = groupby(["DIAJ", "HORA"]).sum()`,
`soma_dia = groupby("DIAJ").sum()`, and `soma_mes = soma_dia.sum()` (the
monthly total is the sum of the stored daily sums over the stored day
keys). -/
def aggregateSensor (l : List NRow) (s : ℕ) : SensorAgg where
  horaKeys := keysOf l fun r => (r.diaj, r.hora)
  somaHora := groupSum l (fun r => (r.diaj, r.hora)) fun r => r.val s
  diaKeys := keysOf l NRow.diaj
  somaDia := groupSum l NRow.diaj fun r => r.val s
  somaMes := ∑ d in keysOf l NRow.diaj, groupSum l NRow.diaj (fun r => r.val s) d

/-- Embedding of `processar_ano` (lines 21-79 of `app.py`): filter by the
time window, clean the sensor cells, derive `MES`/`DIA`, then for each
month present (ascending) and each sensor column build the three-level
sums.  Returns `none` when a row's Julian-day conversion fails, which in
the script raises out of `processar_ano` (see `normRow`). -/
def processarAno (rows : List Row) (sensorColumns : List ℕ) :
    Option (List (ℤ × List (ℕ × SensorAgg))) :=
  match mapOption normRow (rows.filter fun r => horaAtiva r.hora) with
  | none => none
  | some nrows =>
      some ((sortedUnique (nrows.map NRow.mes)).map fun m =>
        (m, sensorColumns.map fun s =>
          (s, aggregateSensor (nrows.filter fun r => decide (r.mes = m)) s)))

/-- Embedding of `calcular_somatorios` (lines 81-108 of `app.py`): process
each year present (ascending) on its year slice.  The sensor-column list
is a parameter (the script derives it from the header names).  An
exception from `processar_ano` propagates, so a single failing year slice
yields `none` for the whole batch. -/
def calcularSomatorios (rows : List Row) (sensorColumns : List ℕ) :
    Option (List (ℤ × List (ℤ × List (ℕ × SensorAgg)))) :=
  mapOption
    (fun a => (processarAno (rows.filter fun r => decide (r.ano = a)) sensorColumns).map
      fun pa => (a, pa))
    (sortedUnique (rows.map Row.ano))

/-- A raw file row: sensor cells still strings, in the file's conventions
(decimal commas, sentinel tokens).  The `ANO`/`DIAJ`/`HORA` columns are
already integers (their own parsing in `load_data` is not at issue in the
claims). -/
structure RawRow where
  ano : ℤ
  diaj : ℤ
  hora : ℤ
  val : ℕ → String

/-- The `load_data` sensor parsing applied to a raw row. -/
def loadRow (r : RawRow) : Row :=
  ⟨r.ano, r.diaj, r.hora, fun n => loadCell (r.val n)⟩

/-- The pipeline end to end from raw file rows: `load_data`'s sensor
parsing followed by `calcular_somatorios`. -/
def calcularSomatoriosRaw (rrows : List RawRow) (sensorColumns : List ℕ) :
    Option (List (ℤ × List (ℤ × List (ℕ × SensorAgg)))) :=
  calcularSomatorios (rrows.map loadRow) sensorColumns

/-! ## Group-by lemmas -/

theorem groupSum_cons [DecidableEq κ] [AddCommMonoid M] (a : α) (l : List α) (key : α → κ)
    (v : α → M) (k : κ) :
    groupSum (a :: l) key v k = (if key a = k then v a else 0) + groupSum l key v k := by
  by_cases h : key a = k <;> simp [groupSum, List.filter_cons, h]

theorem groupSum_eq_zero [DecidableEq κ] [AddCommMonoid M] {l : List α} {key : α → κ}
    (v : α → M) {k : κ} (h : k ∉ keysOf l key) : groupSum l key v k = 0 := by
  have hnil : (l.filter fun x => decide (key x = k)) = [] := by
    rw [List.filter_eq_nil_iff]
    intro x hx
    simp only [decide_eq_true_eq]
    intro hk
    exact h (by simp [keysOf, List.mem_toFinset, List.mem_map]; exact ⟨x, hx, hk⟩)
  simp [groupSum, hnil]

theorem sum_groupSum [DecidableEq κ] [AddCommMonoid M] (l : List α) (key : α → κ) (v : α → M) :
    ∑ k in keysOf l key, groupSum l key v k = (l.map v).sum := by
  induction l with
  | nil => simp [keysOf, groupSum]
  | cons a l ih =>
    have hk : keysOf (a :: l) key = insert (key a) (keysOf l key) := by
      simp [keysOf]
    rw [hk, Finset.sum_congr rfl fun k _ => groupSum_cons a l key v k,
      Finset.sum_add_distrib]
    have h1 : ∑ k in insert (key a) (keysOf l key), (if key a = k then v a else 0) = v a := by
      rw [Finset.sum_ite_eq]
      simp
    have h2 : ∑ k in insert (key a) (keysOf l key), groupSum l key v k
        = ∑ k in keysOf l key, groupSum l key v k := by
      by_cases hm : key a ∈ keysOf l key
      · rw [Finset.insert_eq_self.mpr hm]
      · rw [Finset.sum_insert hm, groupSum_eq_zero v hm, zero_add]
    rw [h1, h2, ih]
    simp

theorem groupSum_pair [DecidableEq κ₁] [DecidableEq κ₂] [AddCommMonoid M] (l : List α)
    (f : α → κ₁) (g : α → κ₂) (v : α → M) (d : κ₁) :
    groupSum l f v d
      = ∑ k in (keysOf l fun x => (f x, g x)).filter (fun k => k.1 = d),
          groupSum l (fun x => (f x, g x)) v k := by
  have base : groupSum l f v d
      = ((l.filter fun x => decide (f x = d)).map v).sum := rfl
  rw [base, ← sum_groupSum (l.filter fun x => decide (f x = d)) (fun x => (f x, g x)) v]
  have hset : keysOf (l.filter fun x => decide (f x = d)) (fun x => (f x, g x))
      = (keysOf l fun x => (f x, g x)).filter (fun k => k.1 = d) := by
    ext k
    simp only [keysOf, List.mem_toFinset, List.mem_map, List.mem_filter, Finset.mem_filter,
      decide_eq_true_eq]
    constructor
    · rintro ⟨x, ⟨hx, hfd⟩, hk⟩
      exact ⟨⟨x, hx, hk⟩, by rw [← hk]; exact hfd⟩
    · rintro ⟨⟨x, hx, hk⟩, hd⟩
      exact ⟨x, ⟨hx, by rw [← hk] at hd; exact hd⟩, hk⟩
  refine Finset.sum_congr hset ?_
  intro k hk
  have hkd : k.1 = d := (Finset.mem_filter.mp hk).2
  show ((((l.filter fun x => decide (f x = d)).filter
      fun x => decide ((f x, g x) = k)).map v)).sum
    = (((l.filter fun x => decide ((f x, g x) = k)).map v)).sum
  congr 1
  congr 1
  rw [List.filter_filter]
  apply List.filter_congr
  intro x _
  by_cases hx : (f x, g x) = k
  · have : f x = d := by rw [← hkd, ← hx]
    simp [hx, this]
  · simp [hx]

/-! ## Structure of the pipeline results -/

theorem mem_of_mapOption {f : α → Option β} :
    ∀ {l : List α} {l2 : List β}, mapOption f l = some l2 →
      ∀ b ∈ l2, ∃ a ∈ l, f a = some b := by
  intro l
  induction l with
  | nil =>
    intro l2 h b hb
    simp only [mapOption, Option.some.injEq] at h
    subst h
    simp at hb
  | cons a l ih =>
    intro l2 h b hb
    simp only [mapOption] at h
    cases hfa : f a with
    | none => rw [hfa] at h; simp at h
    | some b0 =>
      cases hml : mapOption f l with
      | none => rw [hfa, hml] at h; simp at h
      | some l3 =>
        rw [hfa, hml] at h
        simp only [Option.some.injEq] at h
        subst h
        rcases List.mem_cons.mp hb with hb0 | hb3
        · exact ⟨a, List.mem_cons_self a l, by rw [hfa, hb0]⟩
        · obtain ⟨x, hx, hfx⟩ := ih hml b hb3
          exact ⟨x, List.mem_cons_of_mem a hx, hfx⟩

theorem normRow_val {r0 : Row} {r : NRow} (h : normRow r0 = some r) :
    ∀ n, r.val n = trataSensor (r0.val n) := by
  unfold normRow at h
  cases hd : diaJulianoParaMesDia r0.ano r0.diaj with
  | none => rw [hd] at h; simp at h
  | some md =>
    rw [hd] at h
    obtain ⟨m, d⟩ := md
    simp only [Option.some.injEq] at h
    subst h
    intro n
    rfl

/-- Every `(sensor, block)` entry inside a `processar_ano` result is an
`aggregateSensor` over some list of cleaned rows. -/
theorem processarAno_entries {rows : List Row} {cols : List ℕ}
    {pa : List (ℤ × List (ℕ × SensorAgg))} (h : processarAno rows cols = some pa) :
    ∀ ma ∈ pa, ∀ sa ∈ ma.2,
      ∃ nrows : List NRow,
        (∀ r ∈ nrows, ∃ r0 : Row, ∀ n, r.val n = trataSensor (r0.val n)) ∧
        sa.2 = aggregateSensor nrows sa.1 := by
  unfold processarAno at h
  cases hm : mapOption normRow (rows.filter fun r => horaAtiva r.hora) with
  | none => rw [hm] at h; simp at h
  | some nrows =>
    rw [hm] at h
    simp only [Option.some.injEq] at h
    subst h
    intro ma hma sa hsa
    obtain ⟨m, _, hmfst⟩ := List.mem_map.mp hma
    subst hmfst
    obtain ⟨s, _, hsfst⟩ := List.mem_map.mp hsa
    subst hsfst
    refine ⟨nrows.filter fun r => decide (r.mes = m), ?_, rfl⟩
    intro r hr
    have hrn : r ∈ nrows := List.mem_of_mem_filter hr
    obtain ⟨r0, _, hr0⟩ := mem_of_mapOption hm r hrn
    exact ⟨r0, normRow_val hr0⟩

/-- Every `(sensor, block)` entry inside a `calcular_somatorios` result is
an `aggregateSensor` over some list of cleaned rows. -/
theorem calcularSomatorios_entries {rows : List Row} {cols : List ℕ}
    {res : List (ℤ × List (ℤ × List (ℕ × SensorAgg)))}
    (h : calcularSomatorios rows cols = some res) :
    ∀ ya ∈ res, ∀ ma ∈ ya.2, ∀ sa ∈ ma.2,
      ∃ nrows : List NRow,
        (∀ r ∈ nrows, ∃ r0 : Row, ∀ n, r.val n = trataSensor (r0.val n)) ∧
        sa.2 = aggregateSensor nrows sa.1 := by
  intro ya hya ma hma sa hsa
  obtain ⟨a, _, hfa⟩ := mem_of_mapOption h ya hya
  cases hpa : processarAno (rows.filter fun r => decide (r.ano = a)) cols with
  | none => rw [hpa] at hfa; simp at hfa
  | some pa =>
    rw [hpa] at hfa
    simp only [Option.map_some', Option.some.injEq] at hfa
    have hya2 : ya.2 = pa := by rw [← hfa]
    rw [hya2] at hma
    exact processarAno_entries hpa ma hma sa hsa

/-- The cross-resolution consistency of one stored block: the monthly
total is the sum of the stored daily sums, and each daily sum is the sum
of the stored minute-bucket sums of that day. -/
theorem aggregateSensor_consistent (l : List NRow) (s : ℕ) :
    (aggregateSensor l s).somaMes
        = ∑ d in (aggregateSensor l s).diaKeys, (aggregateSensor l s).somaDia d ∧
      ∀ d, (aggregateSensor l s).somaDia d
        = ∑ k in (aggregateSensor l s).horaKeys.filter (fun k => k.1 = d),
            (aggregateSensor l s).somaHora k :=
  ⟨rfl, fun d => groupSum_pair l NRow.diaj NRow.hora (fun r => r.val s) d⟩

/-! ## Nonnegativity -/

theorem trataSensor_nonneg (v : PVal) : 0 ≤ trataSensor v := by
  cases v with
  | num q =>
    show (0 : WithTop ℚ) ≤ ((max 0 q : ℚ) : WithTop ℚ)
    exact_mod_cast le_max_left 0 q
  | nan => exact le_refl _
  | inf => exact le_top
  | ninf => exact le_refl _

theorem groupSum_nonneg [DecidableEq κ] [OrderedAddCommMonoid M] (l : List α) (key : α → κ)
    (v : α → M) (hv : ∀ x ∈ l, 0 ≤ v x) (k : κ) : 0 ≤ groupSum l key v k := by
  apply List.sum_nonneg
  intro y hy
  obtain ⟨x, hx, hxy⟩ := List.mem_map.mp hy
  rw [← hxy]
  exact hv x (List.mem_of_mem_filter hx)

theorem aggregateSensor_nonneg (l : List NRow) (s : ℕ)
    (hv : ∀ r ∈ l, 0 ≤ r.val s) :
    0 ≤ (aggregateSensor l s).somaMes ∧
      (∀ d, 0 ≤ (aggregateSensor l s).somaDia d) ∧
      (∀ k, 0 ≤ (aggregateSensor l s).somaHora k) := by
  refine ⟨?_, ?_, ?_⟩
  · show 0 ≤ ∑ d in keysOf l NRow.diaj, groupSum l NRow.diaj (fun r => r.val s) d
    exact Finset.sum_nonneg fun d _ => groupSum_nonneg l NRow.diaj (fun r => r.val s) hv d
  · intro d
    exact groupSum_nonneg l NRow.diaj (fun r => r.val s) hv d
  · intro k
    exact groupSum_nonneg l (fun r => (r.diaj, r.hora)) (fun r => r.val s) hv k

/-! ## Calendar round trip -/

set_option maxRecDepth 4000 in
set_option maxHeartbeats 1000000 in
theorem roundtrip_core : ∀ (b : Bool) (n : ℕ), n < 366 → ((n : ℤ) + 1 ≤ daysInYearB b) →
    dayOfYear b (monthDayOfDoy b ((n : ℤ) + 1)).1 (monthDayOfDoy b ((n : ℤ) + 1)).2
      = (n : ℤ) + 1 := by decide

/-- C8: for every valid pair (year, day-of-year), `dia_juliano_para_mes_dia`
returns the in-year (month, day), and converting that (month, day) back to
a day-of-year within the same year reproduces the input. -/
theorem c8_ida_e_volta (ano diaj : ℤ) (h1 : 1 ≤ ano) (h2 : ano ≤ 9999)
    (h3 : 1 ≤ diaj) (h4 : diaj ≤ daysInYear ano) :
    diaJulianoParaMesDia ano diaj = some (monthDayOfDoy (isLeap ano) diaj) ∧
    dayOfYear (isLeap ano) (monthDayOfDoy (isLeap ano) diaj).1
      (monthDayOfDoy (isLeap ano) diaj).2 = diaj := by
  constructor
  · have c1 : ¬(ano < 1 ∨ 9999 < ano) := by omega
    have c2 : ¬(diaj < 1) := by omega
    have c3 : ¬(daysInYear ano < diaj) := not_lt.mpr h4
    show djpmdAux (19999 + 1) ano diaj = _
    rw [djpmdAux, if_neg c1, if_neg c2, if_neg c3]
  · have hy366 : daysInYear ano ≤ 366 := by
      unfold daysInYear
      cases isLeap ano <;> simp [daysInYearB]
    have hdiaj : ((diaj - 1).toNat : ℤ) + 1 = diaj := by omega
    have h366 : (diaj - 1).toNat < 366 := by omega
    have hb : ((diaj - 1).toNat : ℤ) + 1 ≤ daysInYearB (isLeap ano) := by
      rw [hdiaj]
      exact h4
    have hcore := roundtrip_core (isLeap ano) (diaj - 1).toNat h366 hb
    rw [hdiaj] at hcore
    exact hcore

/-- Witness for `c8_ida_e_volta` at (2023, 60), i.e. 2023-03-01. -/
theorem c8_testemunha :
    diaJulianoParaMesDia 2023 60 = some (monthDayOfDoy (isLeap 2023) 60) ∧
    dayOfYear (isLeap 2023) (monthDayOfDoy (isLeap 2023) 60).1
      (monthDayOfDoy (isLeap 2023) 60).2 = 60 :=
  c8_ida_e_volta 2023 60 (by norm_num) (by norm_num) (by norm_num) (by decide)

/-- C2: contrary to the specified behaviour, the converter does not fail
for day 366 of the non-leap year 2021: `datetime(2021, 1, 1) +
timedelta(days=365)` silently rolls over to 2022-01-01, so the code
returns `(1, 1)` instead of raising.  The leap-year case (2020, 366) does
return (12, 31) as specified. -/
theorem c2_avaliacao :
    diaJulianoParaMesDia 2021 366 = some (1, 1) ∧
    diaJulianoParaMesDia 2020 366 = some (12, 31) := by decide

/-! ## Claims about the aggregation engine -/

/-- C1: for every (year, month, sensor) entry of the result produced by
`calcular_somatorios` from any batch, the stored monthly sum equals the
sum of the stored daily sums, and every daily sum equals the sum of that
day's stored minute-bucket sums, exactly. -/
theorem c1_consistencia (rows : List Row) (cols : List ℕ)
    (res : List (ℤ × List (ℤ × List (ℕ × SensorAgg))))
    (h : calcularSomatorios rows cols = some res) :
    ∀ ya ∈ res, ∀ ma ∈ ya.2, ∀ sa ∈ ma.2,
      sa.2.somaMes = ∑ d in sa.2.diaKeys, sa.2.somaDia d ∧
      ∀ d, sa.2.somaDia d
        = ∑ k in sa.2.horaKeys.filter (fun k => k.1 = d), sa.2.somaHora k := by
  intro ya hya ma hma sa hsa
  obtain ⟨nr, _, hagg⟩ := calcularSomatorios_entries h ya hya ma hma sa hsa
  rw [hagg]
  exact aggregateSensor_consistent nr sa.1

/-- The all-empty sensor block, used as a default for list access. -/
def saPadrao : SensorAgg :=
  ⟨∅, fun _ => 0, ∅, fun _ => 0, 0⟩

/-- First sensor block of the first month of the first year of a
`calcular_somatorios` result. -/
def blocoDe (o : Option (List (ℤ × List (ℤ × List (ℕ × SensorAgg))))) : SensorAgg :=
  ((((o.getD []).headD (0, [])).2.headD (0, [])).2.headD (0, saPadrao)).2

/-- A concrete two-reading batch for exercising `c1_consistencia`. -/
def loteC1 : List Row :=
  [⟨2021, 100, 600, fun _ => PVal.num 2⟩, ⟨2021, 100, 660, fun _ => PVal.num 3⟩]

/-- Witness for `c1_consistencia` on `loteC1`. -/
theorem c1_testemunha :
    (blocoDe (calcularSomatorios loteC1 [0])).somaMes
        = ∑ d in (blocoDe (calcularSomatorios loteC1 [0])).diaKeys,
            (blocoDe (calcularSomatorios loteC1 [0])).somaDia d ∧
      (blocoDe (calcularSomatorios loteC1 [0])).somaDia 100
        = ∑ k in (blocoDe (calcularSomatorios loteC1 [0])).horaKeys.filter
              (fun k => k.1 = 100),
            (blocoDe (calcularSomatorios loteC1 [0])).somaHora k := by
  have hres : calcularSomatorios loteC1 [0]
      = some ((calcularSomatorios loteC1 [0]).getD []) := rfl
  have h := c1_consistencia loteC1 [0] _ hres
  have hya : ((calcularSomatorios loteC1 [0]).getD []).headD (0, [])
      ∈ (calcularSomatorios loteC1 [0]).getD [] := List.mem_cons_self _ _
  have hma : (((calcularSomatorios loteC1 [0]).getD []).headD (0, [])).2.headD (0, [])
      ∈ (((calcularSomatorios loteC1 [0]).getD []).headD (0, [])).2 :=
    List.mem_cons_self _ _
  have hsa : ((((calcularSomatorios loteC1 [0]).getD []).headD (0, [])).2.headD
        (0, [])).2.headD (0, saPadrao)
      ∈ ((((calcularSomatorios loteC1 [0]).getD []).headD (0, [])).2.headD (0, [])).2 :=
    List.mem_cons_self _ _
  exact ⟨(h _ hya _ hma _ hsa).1, (h _ hya _ hma _ hsa).2 100⟩

/-- C10: every stored sum, at every resolution, is nonnegative, for any
raw string batch: normalization coerces anomalies to 0 and clips
negatives, so no aggregated value is negative. -/
theorem c10_nao_negativo (rrows : List RawRow) (cols : List ℕ)
    (res : List (ℤ × List (ℤ × List (ℕ × SensorAgg))))
    (h : calcularSomatoriosRaw rrows cols = some res) :
    ∀ ya ∈ res, ∀ ma ∈ ya.2, ∀ sa ∈ ma.2,
      0 ≤ sa.2.somaMes ∧ (∀ d, 0 ≤ sa.2.somaDia d) ∧ (∀ k, 0 ≤ sa.2.somaHora k) := by
  intro ya hya ma hma sa hsa
  obtain ⟨nr, hval, hagg⟩ := calcularSomatorios_entries h ya hya ma hma sa hsa
  rw [hagg]
  apply aggregateSensor_nonneg
  intro r hr
  obtain ⟨r0, hr0⟩ := hval r hr
  rw [hr0 sa.1]
  exact trataSensor_nonneg _

/-- A concrete raw batch (decimal-comma cell) for exercising
`c10_nao_negativo`. -/
def loteC10 : List RawRow :=
  [⟨2021, 100, 600, fun _ => "3,5"⟩]

/-- Witness for `c10_nao_negativo` on `loteC10`. -/
theorem c10_testemunha :
    0 ≤ (blocoDe (calcularSomatoriosRaw loteC10 [0])).somaMes ∧
      0 ≤ (blocoDe (calcularSomatoriosRaw loteC10 [0])).somaDia 100 ∧
      0 ≤ (blocoDe (calcularSomatoriosRaw loteC10 [0])).somaHora (100, 600) := by
  have hres : calcularSomatoriosRaw loteC10 [0]
      = some ((calcularSomatoriosRaw loteC10 [0]).getD []) := rfl
  have h := c10_nao_negativo loteC10 [0] _ hres
  have hya : ((calcularSomatoriosRaw loteC10 [0]).getD []).headD (0, [])
      ∈ (calcularSomatoriosRaw loteC10 [0]).getD [] := List.mem_cons_self _ _
  have hma : (((calcularSomatoriosRaw loteC10 [0]).getD []).headD (0, [])).2.headD (0, [])
      ∈ (((calcularSomatoriosRaw loteC10 [0]).getD []).headD (0, [])).2 :=
    List.mem_cons_self _ _
  have hsa : ((((calcularSomatoriosRaw loteC10 [0]).getD []).headD (0, [])).2.headD
        (0, [])).2.headD (0, saPadrao)
      ∈ ((((calcularSomatoriosRaw loteC10 [0]).getD []).headD (0, [])).2.headD (0, [])).2 :=
    List.mem_cons_self _ _
  exact ⟨(h _ hya _ hma _ hsa).1, (h _ hya _ hma _ hsa).2.1 100,
    (h _ hya _ hma _ hsa).2.2 (100, 600)⟩

/-- C7: the default window is [360, 1080] inclusive (359 and 1081 are
excluded, 360 and 1080 included), and a row outside the window is dropped
entirely: prepending it to any batch leaves the whole aggregation result
unchanged, keys included (it is not counted as a zero contribution). -/
theorem c7_filtro_janela :
    horaAtiva 359 = false ∧ horaAtiva 360 = true ∧ horaAtiva 1080 = true ∧
      horaAtiva 1081 = false ∧
      ∀ (r : Row) (rows : List Row) (cols : List ℕ), horaAtiva r.hora = false →
        processarAno (r :: rows) cols = processarAno rows cols := by
  refine ⟨rfl, rfl, rfl, rfl, ?_⟩
  intro r rows cols h
  have hf : (r :: rows).filter (fun x => horaAtiva x.hora)
      = rows.filter (fun x => horaAtiva x.hora) := by
    simp [List.filter_cons, h]
  unfold processarAno
  rw [hf]

/-- Witness for `c7_filtro_janela`: a 01:40 reading (minute 100) is
dropped. -/
theorem c7_testemunha :
    processarAno [⟨2021, 100, 100, fun _ => PVal.num 1⟩] [0] = processarAno [] [0] :=
  c7_filtro_janela.2.2.2.2 ⟨2021, 100, 100, fun _ => PVal.num 1⟩ [] [0] rfl

/-- C9: an empty input batch yields an empty result, with no error (the
embedded pipeline returns `some` of the empty mapping). -/
theorem c9_lote_vazio (cols : List ℕ) : calcularSomatorios [] cols = some [] := rfl

/-- Witness for `c9_lote_vazio` at the ten standard sensor columns. -/
theorem c9_testemunha :
    calcularSomatorios [] [1, 2, 3, 4, 5, 6, 7, 8, 9, 10] = some [] :=
  c9_lote_vazio [1, 2, 3, 4, 5, 6, 7, 8, 9, 10]

/-- First sensor block of the first month of a `processar_ano` result. -/
def blocoAno (o : Option (List (ℤ × List (ℕ × SensorAgg)))) : SensorAgg :=
  (((o.getD []).headD (0, [])).2.headD (0, saPadrao)).2

/-- The offending row for C4: day 366 of the non-leap year 2021. -/
def linhaBissexto : Row :=
  ⟨2021, 366, 600, fun _ => PVal.num 5⟩

/-- C4: contrary to the claim, a row whose (year, day_of_year) has no
valid date within that year is not excluded: day 366 of 2021 rolls over to
2022-01-01 and is aggregated under month 1 (with its full value in the
daily sum for day key 366).  Moreover, when the conversion genuinely
fails (year 0 is outside `datetime`'s range), the whole batch aborts —
including the perfectly valid second row — instead of dropping the one
bad row. -/
theorem c4_avaliacao :
    (processarAno [linhaBissexto] [0]).map (fun l => l.map Prod.fst) = some [1] ∧
    (blocoAno (processarAno [linhaBissexto] [0])).somaDia 366 = ((5 : ℚ) : WithTop ℚ) ∧
    calcularSomatorios
        [⟨0, 50, 600, fun _ => PVal.num 5⟩, ⟨2021, 100, 600, fun _ => PVal.num 5⟩]
        [0] = none := by
  refine ⟨rfl, ?_, rfl⟩
  with_unfolding_all decide

/-! ## Claims about the normalizer -/

/-- C3: the five reference inputs of the specification normalize to
0, 0, 0, 0 and 3.5 respectively. -/
theorem c3_exemplos :
    normalizeCellStr "<NA>" = 0 ∧ normalizeCellStr "nan" = 0 ∧
      normalizeCellStr "-5" = 0 ∧ normalizeCellStr "" = 0 ∧
      normalizeCellStr "3,5" = (((7 : ℚ) / 2 : ℚ) : WithTop ℚ) := by
  refine ⟨by decide, by decide, by decide, by decide, ?_⟩
  with_unfolding_all decide

/-- C6 counterexample: the raw string "inf" parses to +infinity;
`.fillna(0)` does not touch it (it is not NaN) and `.clip(lower=0)` keeps
it, so the normalizer's output is +infinity — not finite, and not 0. -/
theorem c6_contraexemplo :
    normalizeCellStr "inf" = ⊤ ∧ (⊤ : WithTop ℚ) ≠ (0 : WithTop ℚ) := by decide

/-- C6 as amended: the normalizer's result is never negative and never
NaN — a nonpositive parsed value, a NaN and -infinity all map to 0 — but
a parsed +infinity propagates as +infinity instead of being mapped to
0.0. -/
theorem c6_corrigido :
    (∀ s : String, 0 ≤ normalizeCellStr s) ∧
      (∀ q : ℚ, q ≤ 0 → trataSensor (PVal.num q) = 0) ∧
      trataSensor PVal.nan = 0 ∧ trataSensor PVal.ninf = 0 ∧
      trataSensor PVal.inf = ⊤ := by
  refine ⟨fun s => trataSensor_nonneg _, ?_, rfl, rfl, rfl⟩
  intro q hq
  show ((max 0 q : ℚ) : WithTop ℚ) = 0
  rw [max_eq_left hq]
  rfl

/-- Witness for `c6_corrigido`: an unparseable cell and a negative cell. -/
theorem c6_testemunha :
    0 ≤ normalizeCellStr "abc" ∧ trataSensor (PVal.num (-3)) = 0 :=
  ⟨c6_corrigido.1 "abc", c6_corrigido.2.1 (-3) (by norm_num)⟩

/-! ## Sap-Flux Model -/

/-- Modelled from the spec: the Sap-Flux Model of §4.5 has no
implementation under `src/` (`app.py` is the plain-sums variant of the
tool), so the empirical constant `C = 478.017e-6` is taken from the
specification's formula. -/
noncomputable def fluxoC : ℝ := 478.017e-6

/-- Modelled from the spec: the fixed empirical exponent `p = 1.231` of
the Sap-Flux Model (§4.5). -/
noncomputable def fluxoExpoente : ℝ := 1.231

/-- Modelled from the spec: the daily maximum of a day's filtered,
windowed normalized samples (normalized samples are nonnegative, so the
fold seed 0 is neutral). -/
noncomputable def maxDia (xs : List ℝ) : ℝ :=
  xs.foldr max 0

/-- Modelled from the spec: per-sensor, per-day flow conversion of §4.5.
With `x_max > 0` each sample `x` maps to
`C * (x / x_max) ^ p * area * 1000`; with `x_max = 0` every sample of the
day maps to an explicit absence (`none`), never a numeric zero. -/
noncomputable def computeFlow (xs : List ℝ) (area : ℝ) : List (Option ℝ) :=
  if 0 < maxDia xs then
    xs.map fun x => some (fluxoC * (x / maxDia xs) ^ fluxoExpoente * area * 1000)
  else
    xs.map fun _ => none

/-- C5: for a day with positive maximum, every sample's flow is
`C * (x / x_max) ^ p * area * 1000`; for a day with zero maximum, every
sample's flow is an explicit absence, never the numeric zero. -/
theorem c5_fluxo (xs : List ℝ) (area : ℝ) :
    (0 < maxDia xs →
      computeFlow xs area
        = xs.map fun x => some (fluxoC * (x / maxDia xs) ^ fluxoExpoente * area * 1000)) ∧
      (maxDia xs = 0 → ∀ o ∈ computeFlow xs area, o = none) := by
  constructor
  · intro h
    unfold computeFlow
    rw [if_pos h]
  · intro h o ho
    unfold computeFlow at ho
    rw [if_neg (by rw [h]; exact lt_irrefl 0)] at ho
    obtain ⟨x, _, hx⟩ := List.mem_map.mp ho
    exact hx.symm

/-- Witness for `c5_fluxo`: the specification's example day `[0, 10, 20]`
with `area = 0.01`, and an all-zero day. -/
theorem c5_testemunha :
    computeFlow [0, 10, 20] (1 / 100)
        = [some (fluxoC * ((0 : ℝ) / maxDia [0, 10, 20]) ^ fluxoExpoente * (1 / 100) * 1000),
           some (fluxoC * ((10 : ℝ) / maxDia [0, 10, 20]) ^ fluxoExpoente * (1 / 100) * 1000),
           some (fluxoC * ((20 : ℝ) / maxDia [0, 10, 20]) ^ fluxoExpoente * (1 / 100) * 1000)] ∧
      computeFlow [0] 1 = [none] := by
  constructor
  · have hpos : 0 < maxDia [0, 10, 20] := by
      simp [maxDia]
    rw [(c5_fluxo [0, 10, 20] (1 / 100)).1 hpos]
    rfl
  · have hz : maxDia [0] = 0 := by simp [maxDia]
    have h := (c5_fluxo [0] 1).2 hz
    have hlen : computeFlow [0] 1 = [((computeFlow [0] 1).headD none)] := by
      unfold computeFlow
      split <;> rfl
    rw [hlen]
    rw [h ((computeFlow [0] 1).headD none) (by rw [hlen]; exact List.mem_cons_self _ _)]

end Eucalipto
